import Mathlib

/-!
Shallow embedding of the WCAG accessibility checker (`check_wcag.py`).

The checker scans text files line by line with substring tests and small
regular expressions.  Lines are modelled as `String` (ASCII content, as in
all inputs the checker targets), Python list/string operations as explicit
recursions on `List Char`, and the few regular expressions of the source as
dedicated leftmost-match search functions whose backtracking behaviour is
spelled out case by case.  Fallible code (Python exceptions) is modelled
with `Option`: a `none` result stands for an uncaught exception.
-/

/-! ## Basic string operations (Python `str.lower`, `str.strip`, `in`, `split`) -/

/-- ASCII lowering of one character, as Python `str.lower` acts on the
checker's ASCII input. -/
def lowerChar (c : Char) : Char :=
  if 65 ≤ c.toNat ∧ c.toNat ≤ 90 then Char.ofNat (c.toNat + 32) else c

def lowerList (cs : List Char) : List Char := cs.map lowerChar

/-- Python `line.lower()` (ASCII fragment). -/
def lowerStr (s : String) : String := String.mk (lowerList s.toList)

/-- The six ASCII whitespace characters recognised by Python `str.strip`
and by the regex class `\s`. -/
def isSpaceAscii (c : Char) : Bool :=
  c.toNat = 32 || c.toNat = 9 || c.toNat = 10 || c.toNat = 13 || c.toNat = 11 || c.toNat = 12

def stripList (cs : List Char) : List Char :=
  ((cs.dropWhile isSpaceAscii).reverse.dropWhile isSpaceAscii).reverse

/-- Python `s.strip()`. -/
def stripStr (s : String) : String := String.mk (stripList s.toList)

/-- Python `needle in hay` on strings: contiguous-substring test. -/
def listContains (needle : List Char) : List Char → Bool
  | [] => needle.isEmpty
  | c :: t => needle.isPrefixOf (c :: t) || listContains needle t

/-- `hasSub hay needle` models Python `needle in hay`. -/
def hasSub (hay needle : String) : Bool := listContains needle.toList hay.toList

/-- Python `s.startswith(pre)`. -/
def pyStartsWith (s pre : String) : Bool := pre.toList.isPrefixOf s.toList

/-- Python `content.split('\n')`: keeps empty pieces, yields one more piece
than there are newlines. -/
def splitNlList : List Char → List (List Char)
  | [] => [[]]
  | c :: t =>
    match splitNlList t with
    | [] => if c.toNat = 10 then [[], []] else [[c]]
    | h :: r => if c.toNat = 10 then [] :: h :: r else (c :: h) :: r

def splitNlStr (s : String) : List String := (splitNlList s.toList).map String.mk

def isDigitChar (c : Char) : Bool := 48 ≤ c.toNat && c.toNat ≤ 57

def digitsToNat (cs : List Char) : Nat := cs.foldl (fun a c => 10 * a + (c.toNat - 48)) 0

/-! ## Leftmost-match search, modelling `re.search` -/

/-- `re.search` tries the pattern at every position, left to right, and
returns the first success. -/
def searchPos {α : Type} (m : List Char → Option α) : List Char → Option α
  | [] => m []
  | c :: t =>
    match m (c :: t) with
    | some a => some a
    | none => searchPos m t

/-- Match of `tabindex=["\x27]?(\d+)` at the start of `cs` (pattern used by
the markup checker on the lowered line); returns the captured integer.
The optional quote cannot backtrack usefully: if a quote is present but not
followed by a digit, re-trying without consuming the quote makes `\d+` face
the quote character itself and fail. -/
def matchTabHtmlAt (cs : List Char) : Option Nat :=
  if "tabindex=".toList.isPrefixOf cs then
    let rest := cs.drop 9
    let rest2 := match rest with
      | '"' :: t => t
      | '\x27' :: t => t
      | _ => rest
    let ds := rest2.takeWhile isDigitChar
    if ds.isEmpty then none else some (digitsToNat ds)
  else none

def findTabHtml (line : String) : Option Nat := searchPos matchTabHtmlAt line.toList

/-- Match of `tabIndex={?(\d+)}?` at the start of `cs` (component checker,
case-sensitive, applied to the raw line). -/
def matchTabReactAt (cs : List Char) : Option Nat :=
  if "tabIndex=".toList.isPrefixOf cs then
    let rest := cs.drop 9
    let rest2 := match rest with
      | '\x7b' :: t => t
      | _ => rest
    let ds := rest2.takeWhile isDigitChar
    if ds.isEmpty then none else some (digitsToNat ds)
  else none

def findTabReact (line : String) : Option Nat := searchPos matchTabReactAt line.toList

/-- Match of `aria-expanded=["\x27]?(true|false|\x7b)` at the start of `cs`. -/
def matchAriaAt (cs : List Char) : Bool :=
  "aria-expanded=".toList.isPrefixOf cs &&
    (let rest := cs.drop 14
     let rest2 := match rest with
       | '"' :: t => t
       | '\x27' :: t => t
       | _ => rest
     "true".toList.isPrefixOf rest2 || "false".toList.isPrefixOf rest2 ||
       "\x7b".toList.isPrefixOf rest2)

def ariaSearchList : List Char → Bool
  | [] => matchAriaAt []
  | c :: t => matchAriaAt (c :: t) || ariaSearchList t

/-- `re.search(r'aria-expanded=["\x27]?(true|false|\x7b)', line)` viewed as a
boolean: does any position of the line match? -/
def ariaSearch (line : String) : Bool := ariaSearchList line.toList

def isHexLower (c : Char) : Bool := isDigitChar c || (97 ≤ c.toNat && c.toNat ≤ 102)

/-- Match of `color:\s*#([0-9a-f]{3,6})` at the start of `cs`; returns the
captured hex digits.  `\s*` is greedy and `#` is not whitespace, so the
whitespace run is forced; `[0-9a-f]{3,6}` greedily takes up to six hex
characters and needs at least three. -/
def matchColorAt (cs : List Char) : Option String :=
  if "color:".toList.isPrefixOf cs then
    let rest := (cs.drop 6).dropWhile isSpaceAscii
    match rest with
    | '#' :: rest2 =>
      let hex := (rest2.takeWhile isHexLower).take 6
      if 3 ≤ hex.length then some (String.mk hex) else none
    | _ => none
  else none

/-- Match of `background(?:-color)?:\s*#([0-9a-f]{3,6})` at the start of
`cs`.  The greedy optional `(?:-color)?` succeeds only when followed by
`:`; otherwise backtracking re-tries without it, and `:` must follow
`background` directly. -/
def matchBgAt (cs : List Char) : Option String :=
  if "background".toList.isPrefixOf cs then
    let rest := cs.drop 10
    let rest2 : Option (List Char) :=
      if "-color:".toList.isPrefixOf rest then some (rest.drop 7)
      else match rest with
        | ':' :: t => some t
        | _ => none
    match rest2 with
    | none => none
    | some r =>
      match r.dropWhile isSpaceAscii with
      | '#' :: rest3 =>
        let hex := (rest3.takeWhile isHexLower).take 6
        if 3 ≤ hex.length then some (String.mk hex) else none
      | _ => none
  else none

def colorSearch (line : String) : Option String := searchPos matchColorAt line.toList

def bgSearch (line : String) : Option String := searchPos matchBgAt line.toList

/-- Index of the first occurrence of `needle` in `hay`. -/
def findSubIdx (needle : List Char) : List Char → Option Nat
  | [] => if needle.isEmpty then some 0 else none
  | c :: t =>
    if needle.isPrefixOf (c :: t) then some 0 else (findSubIdx needle t).map (· + 1)

/-- Match of `<button[^>]*>(.*?)</button>` (IGNORECASE) at the start of
`cs`; returns capture group 1.  `[^>]*` cannot cross a `>`, so the `>` that
closes the opening tag is the first `>` after `<button`; the lazy `(.*?)`
makes the group end at the first following `</button>`. -/
def matchButtonAt (cs : List Char) : Option String :=
  if "<button".toList.isPrefixOf (lowerList cs) then
    let rest := cs.drop 7
    match List.findIdx? (fun c => c.toNat = 62) rest with
    | none => none
    | some gi =>
      let after := rest.drop (gi + 1)
      match findSubIdx "</button>".toList (lowerList after) with
      | none => none
      | some k => some (String.mk (after.take k))
  else none

def buttonSearch (line : String) : Option String := searchPos matchButtonAt line.toList

/-! ## The Issue record and the lightness heuristic -/

/-- The `Issue` dataclass: one detected violation. -/
structure Issue where
  file : String
  line : Nat
  column : Nat
  severity : String
  rule : String
  message : String
  code_snippet : String
  deriving DecidableEq

/-- The (severity, rule, message) triple an evaluator block emits; the file
name, line number and snippet are attached by `mkIssue` below, mirroring
`_add_issue`. -/
structure Finding where
  severity : String
  rule : String
  message : String
  deriving DecidableEq

/-- `_add_issue`: column is always 0 and the snippet is the stripped line. -/
def mkIssue (file : String) (lineNum : Nat) (line : String) (fd : Finding) : Issue :=
  { file := file, line := lineNum, column := 0, severity := fd.severity,
    rule := fd.rule, message := fd.message, code_snippet := stripStr line }

/-- One digit of Python `int(s, 16)`. -/
def hexDigitVal (c : Char) : Option Nat :=
  let n := c.toNat
  if 48 ≤ n ∧ n ≤ 57 then some (n - 48)
  else if 97 ≤ n ∧ n ≤ 102 then some (n - 87)
  else if 65 ≤ n ∧ n ≤ 70 then some (n - 55)
  else none

def intHexAux : Nat → List Char → Option Nat
  | acc, [] => some acc
  | acc, c :: t =>
    match hexDigitVal c with
    | some v => intHexAux (16 * acc + v) t
    | none => none

/-- Python `int(s, 16)` on a plain digit string: raises (`none`) on the
empty string or on a non-hex character. -/
def intHex? (cs : List Char) : Option Nat :=
  match cs with
  | [] => none
  | _ => intHexAux 0 cs

/-- `''.join([c*2 for c in hex_color])`: double every character. -/
def doubleEach : List Char → List Char
  | [] => []
  | c :: t => c :: c :: doubleEach t

/-- The 3-digit expansion step of `hex_to_lightness`. -/
def expandHex (cs : List Char) : List Char := if cs.length = 3 then doubleEach cs else cs

/-- The three channel reads `int(hex[0:2],16)`, `int(hex[2:4],16)`,
`int(hex[4:6],16)` of `hex_to_lightness`, after 3-digit expansion;
`none` when any slice fails to parse (Python `ValueError`). -/
def byteChannels (s : String) : Option (Nat × Nat × Nat) :=
  let cs := expandHex s.toList
  match intHex? (cs.take 2), intHex? ((cs.drop 2).take 2), intHex? ((cs.drop 4).take 2) with
  | some r, some g, some b => some (r, g, b)
  | _, _, _ => none

/-- `hex_to_lightness`: integer-truncated mean of the three channels
(`//` on non-negative values is `Nat` division). -/
def hex_to_lightness (s : String) : Option Nat :=
  match byteChannels s with
  | some (r, g, b) => some ((r + g + b) / 3)
  | none => none

/-- `_similar_lightness`: both light (> 180) or both dark (< 75);
`none` models the `ValueError` escaping from `hex_to_lightness`. -/
def similar_lightness (c1 c2 : String) : Option Bool :=
  match hex_to_lightness c1, hex_to_lightness c2 with
  | some l1, some l2 =>
    some ((decide (180 < l1) && decide (180 < l2)) || (decide (l1 < 75) && decide (l2 < 75)))
  | _, _ => none

/-! ## Rule messages (verbatim from the source) -/

def imgAltMsg : String := "Image missing alt attribute (WCAG 1.1.1)"
def buttonNameMsg : String := "Button has no accessible name (WCAG 4.1.2)"
def htmlLangMsg : String := "HTML element missing lang attribute (WCAG 3.1.1)"
def htmlClickMsg : String := "Click handler on non-interactive element without role/tabindex (WCAG 2.1.1)"
def htmlTabMsg : String := "Positive tabindex values can cause focus order issues"
def reactClickMsg : String := "onClick on non-interactive element needs role=\"button\" and onKeyDown (WCAG 2.1.1)"
def roleButtonMsg : String := "Element with role=\"button\" should have onKeyDown handler"
def ariaMsg : String := "aria-expanded must be \"true\" or \"false\" or boolean expression"
def labelMsg : String := "Label should have htmlFor attribute or wrap an input"
def autofocusMsg : String := "autoFocus can be disruptive for keyboard and screen reader users"
def reactTabMsg : String := "Positive tabIndex values can cause focus order issues"
def focusMsg : String := "Removing outline on :focus requires alternative visible focus indicator (WCAG 2.4.7)"
def contrastMsg : String := "Potential color contrast issue - verify 4.5:1 ratio for text (WCAG 1.4.3)"

/-! ## Markup evaluator (`_check_html`), one block per source `if` -/

def htmlImgPiece (line : String) : List Finding :=
  let ll := lowerStr line
  if hasSub ll "<img" && !hasSub ll "alt=" then
    [⟨"error", "img-alt", imgAltMsg⟩] else []

/- The source's `<input`/`type=` block is a no-op (its body is `pass`) and
emits nothing, so it has no counterpart here. -/

def htmlButtonPiece (line : String) : List Finding :=
  let ll := lowerStr line
  if hasSub ll "<button" && hasSub line ">" then
    match buttonSearch line with
    | some inner =>
      if stripStr inner = "" then
        (if !hasSub ll "aria-label=" then [⟨"error", "button-name", buttonNameMsg⟩] else [])
      else []
    | none => []
  else []

def htmlLangPiece (i : Nat) (line : String) : List Finding :=
  let ll := lowerStr line
  if i == 1 || hasSub ll "<html" then
    (if hasSub ll "<html" && !hasSub ll "lang=" then [⟨"error", "html-lang", htmlLangMsg⟩] else [])
  else []

def htmlClickPiece (line : String) : List Finding :=
  let ll := lowerStr line
  if hasSub ll "onclick=" then
    (if hasSub ll "<div" || hasSub ll "<span" then
      (if !hasSub ll "role=" && !hasSub ll "tabindex=" then
        [⟨"error", "click-events-have-key-events", htmlClickMsg⟩] else [])
     else [])
  else []

def htmlTabPiece (line : String) : List Finding :=
  match findTabHtml (lowerStr line) with
  | some n => if 0 < n then [⟨"warning", "no-positive-tabindex", htmlTabMsg⟩] else []
  | none => []

def htmlLineFindings (i : Nat) (line : String) : List Finding :=
  htmlImgPiece line ++ htmlButtonPiece line ++ htmlLangPiece i line ++
    htmlClickPiece line ++ htmlTabPiece line

def checkHtmlFrom (file : String) (i : Nat) : List String → List Issue
  | [] => []
  | l :: ls => (htmlLineFindings i l).map (mkIssue file i l) ++ checkHtmlFrom file (i + 1) ls

/-- `_check_html`: lines enumerated from 1. -/
def check_html (file : String) (lines : List String) : List Issue := checkHtmlFrom file 1 lines

/-! ## Component evaluator (`_check_react`) -/

def reactImgPiece (line : String) : List Finding :=
  if hasSub line "<img" && !hasSub line "alt=" && !hasSub line "alt=\x7b" then
    [⟨"error", "img-alt", imgAltMsg⟩] else []

def reactClickPiece (line : String) : List Finding :=
  let ll := lowerStr line
  if hasSub line "onClick=" || hasSub ll "onclick=" then
    (if (hasSub line "<div" || hasSub line "<span") && !hasSub line "role=" then
      (if !hasSub line "tabIndex=" && !hasSub ll "tabindex=" then
        [⟨"error", "click-events-have-key-events", reactClickMsg⟩] else [])
     else [])
  else []

def reactRolePiece (line : String) : List Finding :=
  let ll := lowerStr line
  if hasSub line "role=\"button\"" || hasSub line "role=\x27button\x27" then
    (if !hasSub line "onKeyDown=" && !hasSub ll "onkeydown=" then
      [⟨"warning", "interactive-supports-focus", roleButtonMsg⟩] else [])
  else []

def reactAriaPiece (line : String) : List Finding :=
  if hasSub line "aria-expanded=" && !ariaSearch line then
    [⟨"error", "aria-expanded-invalid", ariaMsg⟩] else []

def reactLabelPiece (line : String) : List Finding :=
  if hasSub line "<label" && !hasSub line "htmlFor=" && hasSub line ">" then
    (if !hasSub line "<input" then
      [⟨"warning", "label-has-associated-control", labelMsg⟩] else [])
  else []

def reactAutofocusPiece (line : String) : List Finding :=
  let ll := lowerStr line
  if hasSub line "autoFocus" || hasSub ll "autofocus" then
    [⟨"warning", "no-autofocus", autofocusMsg⟩] else []

def reactTabPiece (line : String) : List Finding :=
  match findTabReact line with
  | some n => if 0 < n then [⟨"warning", "no-positive-tabindex", reactTabMsg⟩] else []
  | none => []

/-- Boolean guard of the component `no-positive-tabindex` block. -/
def reactTabFires (line : String) : Bool :=
  match findTabReact line with
  | some n => decide (0 < n)
  | none => false

def reactLineFindings (line : String) : List Finding :=
  reactImgPiece line ++ reactClickPiece line ++ reactRolePiece line ++ reactAriaPiece line ++
    reactLabelPiece line ++ reactAutofocusPiece line ++ reactTabPiece line

def checkReactFrom (file : String) (i : Nat) : List String → List Issue
  | [] => []
  | l :: ls => (reactLineFindings l).map (mkIssue file i l) ++ checkReactFrom file (i + 1) ls

/-- `_check_react`. -/
def check_react (file : String) (lines : List String) : List Issue := checkReactFrom file 1 lines

/-! ## Stylesheet evaluator (`_check_css`) -/

/-- The `outline: none` block.  The checks run on the stripped, lowered
line; the one-line lookback (`lines[i-2].lower()`) runs on the raw
preceding line, lowered but not stripped. -/
def cssFocusPiece (prev : Option String) (line : String) : List Finding :=
  let ll := lowerStr (stripStr line)
  if hasSub ll "outline:" && hasSub ll "none" then
    (if hasSub ll ":focus" ||
        (match prev with | some p => hasSub (lowerStr p) ":focus" | none => false) then
      [⟨"warning", "focus-visible", focusMsg⟩] else [])
  else []

/-- One stylesheet line: `none` when `_similar_lightness` raises. -/
def cssLineFindings (prev : Option String) (line : String) : Option (List Finding) :=
  let ll := lowerStr (stripStr line)
  match colorSearch ll, bgSearch ll with
  | some c, some b =>
    match similar_lightness c b with
    | some sim =>
      some (cssFocusPiece prev line ++
        (if sim then [⟨"warning", "color-contrast", contrastMsg⟩] else []))
    | none => none
  | _, _ => some (cssFocusPiece prev line)

def checkCssFrom (file : String) (i : Nat) (prev : Option String) :
    List String → Option (List Issue)
  | [] => some []
  | l :: ls =>
    match cssLineFindings prev l with
    | none => none
    | some fds =>
      (checkCssFrom file (i + 1) (some l) ls).map (fun rest => fds.map (mkIssue file i l) ++ rest)

/-- `_check_css`. -/
def check_css (file : String) (lines : List String) : Option (List Issue) :=
  checkCssFrom file 1 none lines

/-! ## Scan orchestrator and CLI driver -/

/-- State of one path in the file system: `missing` makes `path.exists()`
false; `unreadable` makes `path.exists()` true but `path.read_text()`
raise; `readable c` reads content `c`. -/
inductive FileState where
  | missing : FileState
  | unreadable : FileState
  | readable : String → FileState

def FS : Type := String → FileState

def afterLastSlash : List Char → List Char
  | [] => []
  | c :: t => if t.contains '/' then afterLastSlash t else (if c = '/' then t else c :: t)

def lastDotIdx : List Char → Option Nat
  | [] => none
  | c :: t =>
    match lastDotIdx t with
    | some i => some (i + 1)
    | none => if c = '.' then some 0 else none

/-- `pathlib.Path(p).suffix` for POSIX-style paths without trailing
slashes: the final component from its last dot, empty when the dot is
absent or leading. -/
def pathSuffix (p : String) : String :=
  let n := afterLastSlash p.toList
  match lastDotIdx n with
  | some i => if 0 < i then String.mk (n.drop i) else ""
  | none => ""

/-- `check_file`: stderr lines emitted and issues returned; `none` models
an exception escaping (unreadable existing file). -/
def check_file (fs : FS) (p : String) : Option (List String × List Issue) :=
  match fs p with
  | FileState.missing => some (["Error: File not found: " ++ p], [])
  | FileState.unreadable => none
  | FileState.readable content =>
    let lines := splitNlStr content
    let suf := pathSuffix p
    if suf = ".html" ∨ suf = ".htm" then some ([], check_html p lines)
    else if suf = ".tsx" ∨ suf = ".jsx" ∨ suf = ".ts" ∨ suf = ".js" then
      some ([], check_react p lines)
    else if suf = ".css" then (check_css p lines).map (fun iss => ([], iss))
    else some ([], [])

/-- The issue-accumulation loop of `main`: `all_issues.extend(issues)` per
file, an uncaught exception (`none`) aborting the whole run. -/
def runIssues (fs : FS) : List String → Option (List Issue)
  | [] => some []
  | f :: rest =>
    match check_file fs f with
    | none => none
    | some (_, iss) => (runIssues fs rest).map (fun more => iss ++ more)

def errCount (iss : List Issue) : Nat := iss.countP (fun i => i.severity == "error")

/-- Exit code of `main` for argument list `args = sys.argv[1:]`:
usage error when no arguments at all, otherwise 1 exactly when an
error-severity issue was found among the non-flag arguments. -/
def mainExit (fs : FS) (args : List String) : Option Nat :=
  if args.length < 1 then some 1
  else
    match runIssues fs (args.filter (fun a => !pyStartsWith a "--")) with
    | none => none
    | some allIssues => some (if 0 < errCount allIssues then 1 else 0)

/-! ## Record (JSON) output -/

inductive JVal where
  | s : String → JVal
  | n : Nat → JVal
  deriving DecidableEq

/-- `dataclasses.asdict(issue)`: the seven fields, in declaration order,
names verbatim. -/
def asdict (i : Issue) : List (String × JVal) :=
  [("file", JVal.s i.file), ("line", JVal.n i.line), ("column", JVal.n i.column),
   ("severity", JVal.s i.severity), ("rule", JVal.s i.rule), ("message", JVal.s i.message),
   ("code_snippet", JVal.s i.code_snippet)]

/-- The `--json` branch of `format_output`: the full ordered issue list,
serialized entry by entry. -/
def format_output_json (issues : List Issue) : List (List (String × JVal)) :=
  issues.map asdict

/-- A sample one-file file system (one readable markup file) and the single
issue its scan yields, used to instantiate run-level theorems. -/
def fsW : FS := fun p =>
  if p = "w.html" then FileState.readable "<img src=\"x.png\">" else FileState.missing

def issueW : Issue :=
  { file := "w.html", line := 1, column := 0, severity := "error", rule := "img-alt",
    message := imgAltMsg, code_snippet := "<img src=\"x.png\">" }

/-! ## Generic helper lemmas -/

theorem ite_nested_single {α : Type} (a b : Bool) (x : List α) :
    (if a then (if b then x else []) else []) = if a && b then x else [] := by
  cases a <;> cases b <;> simp

theorem any_ite_single (c : Bool) (fd : Finding) (p : Finding → Bool) :
    (if c then [fd] else []).any p = (c && p fd) := by
  cases c <;> simp

theorem filter_ite_single (c : Bool) (fd : Finding) (p : Finding → Bool) :
    (if c then [fd] else []).filter p = if c && p fd then [fd] else [] := by
  cases c <;> cases h : p fd <;> simp [h]

/-! ## Flat forms of the component-evaluator blocks -/

theorem reactImgPiece_eq (line : String) :
    reactImgPiece line =
      if hasSub line "<img" && !hasSub line "alt=" && !hasSub line "alt=\x7b" then
        [⟨"error", "img-alt", imgAltMsg⟩] else [] := rfl

theorem reactClickPiece_eq (line : String) :
    reactClickPiece line =
      if (hasSub line "onClick=" || hasSub (lowerStr line) "onclick=") &&
          (((hasSub line "<div" || hasSub line "<span") && !hasSub line "role=") &&
            (!hasSub line "tabIndex=" && !hasSub (lowerStr line) "tabindex=")) then
        [⟨"error", "click-events-have-key-events", reactClickMsg⟩] else [] := by
  simp only [reactClickPiece, ite_nested_single, Bool.and_assoc]

theorem reactRolePiece_eq (line : String) :
    reactRolePiece line =
      if (hasSub line "role=\"button\"" || hasSub line "role=\x27button\x27") &&
          (!hasSub line "onKeyDown=" && !hasSub (lowerStr line) "onkeydown=") then
        [⟨"warning", "interactive-supports-focus", roleButtonMsg⟩] else [] := by
  simp only [reactRolePiece, ite_nested_single]

theorem reactAriaPiece_eq (line : String) :
    reactAriaPiece line =
      if hasSub line "aria-expanded=" && !ariaSearch line then
        [⟨"error", "aria-expanded-invalid", ariaMsg⟩] else [] := rfl

theorem reactLabelPiece_eq (line : String) :
    reactLabelPiece line =
      if (hasSub line "<label" && !hasSub line "htmlFor=" && hasSub line ">") &&
          !hasSub line "<input" then
        [⟨"warning", "label-has-associated-control", labelMsg⟩] else [] := by
  simp only [reactLabelPiece, ite_nested_single]

theorem reactAutofocusPiece_eq (line : String) :
    reactAutofocusPiece line =
      if hasSub line "autoFocus" || hasSub (lowerStr line) "autofocus" then
        [⟨"warning", "no-autofocus", autofocusMsg⟩] else [] := rfl

theorem reactTabPiece_eq (line : String) :
    reactTabPiece line =
      if reactTabFires line then [⟨"warning", "no-positive-tabindex", reactTabMsg⟩] else [] := by
  unfold reactTabPiece reactTabFires
  cases h : findTabReact line with
  | none => simp
  | some n => by_cases hn : 0 < n <;> simp [hn]

/-! ## Claim theorems: component evaluator -/

/-- C9: a `<div onClick=\x7bfn\x7d>text</div>` line yields exactly the
`click-events-have-key-events` error; adding `tabIndex=\x7b0\x7d` to the same
line suppresses it; and in general the rule fires exactly when a click
handler (either spelling) appears with a `div`/`span` tag on a line missing
both a `role` attribute and a focus-index attribute (either spelling). -/
theorem check_react_click_events_rule :
    check_react "c9a.tsx" ["<div onClick=\x7bfn\x7d>text</div>"] =
      [{ file := "c9a.tsx", line := 1, column := 0, severity := "error",
         rule := "click-events-have-key-events", message := reactClickMsg,
         code_snippet := "<div onClick=\x7bfn\x7d>text</div>" }] ∧
    check_react "c9b.tsx" ["<div onClick=\x7bfn\x7d tabIndex=\x7b0\x7d>text</div>"] = [] ∧
    (∀ line : String,
      (reactLineFindings line).any (fun fd => fd.rule == "click-events-have-key-events") =
        ((hasSub line "onClick=" || hasSub (lowerStr line) "onclick=") &&
          (((hasSub line "<div" || hasSub line "<span") && !hasSub line "role=") &&
            (!hasSub line "tabIndex=" && !hasSub (lowerStr line) "tabindex=")))) := by
  refine ⟨by decide, by decide, ?_⟩
  intro line
  simp only [reactLineFindings, List.any_append, reactImgPiece_eq, reactClickPiece_eq,
    reactRolePiece_eq, reactAriaPiece_eq, reactLabelPiece_eq, reactAutofocusPiece_eq,
    reactTabPiece_eq, any_ite_single]
  simp

/-- C10: the `aria-expanded-invalid` error fires exactly when the line
contains `aria-expanded=` and no position matches `aria-expanded=` plus an
optional quote plus `true`/`false`/`\x7b`; so a value merely starting with
`true`/`false` produces no issue, one valid occurrence masks an invalid one
on the same line, and at most one such issue arises per line. -/
theorem check_react_aria_expanded_rule :
    (∀ line : String,
      (reactLineFindings line).any (fun fd => fd.rule == "aria-expanded-invalid") =
        (hasSub line "aria-expanded=" && !ariaSearch line)) ∧
    (∀ line : String,
      ((reactLineFindings line).filter (fun fd => fd.rule == "aria-expanded-invalid")).length ≤ 1) ∧
    check_react "c10a.tsx" ["<button aria-expanded=\"falsey\">"] = [] ∧
    check_react "c10b.tsx" ["<a aria-expanded=\x7bopen\x7d aria-expanded=nope>"] = [] ∧
    check_react "c10c.tsx" ["<a aria-expanded=nope>"] =
      [{ file := "c10c.tsx", line := 1, column := 0, severity := "error",
         rule := "aria-expanded-invalid", message := ariaMsg,
         code_snippet := "<a aria-expanded=nope>" }] := by
  refine ⟨?_, ?_, by decide, by decide, by decide⟩
  · intro line
    simp only [reactLineFindings, List.any_append, reactImgPiece_eq, reactClickPiece_eq,
      reactRolePiece_eq, reactAriaPiece_eq, reactLabelPiece_eq, reactAutofocusPiece_eq,
      reactTabPiece_eq, any_ite_single]
    simp
  · intro line
    simp only [reactLineFindings, List.filter_append, reactImgPiece_eq, reactClickPiece_eq,
      reactRolePiece_eq, reactAriaPiece_eq, reactLabelPiece_eq, reactAutofocusPiece_eq,
      reactTabPiece_eq, filter_ite_single]
    simp
    split <;> simp

/-- C6 counterexample: a component line with a positive focus index in the
lowercase spelling (`tabindex=5`) produces no issue at all, contradicting
the claim that the `no-positive-tabindex` warning is produced just as for
`tabIndex=5`. -/
theorem check_react_lowercase_tabindex_no_warning :
    check_react "f.tsx" ["<div tabindex=5>"] = [] := by decide

/-- C6 amended: the lowercase case-insensitive fallback exists for the
click-handler check (so `ONCLICK=` fires the click rule), but the
`no-positive-tabindex` pattern matches only the case-sensitive `tabIndex`
spelling: `tabIndex=5` warns, `tabindex=5` does not. -/
theorem react_tabindex_case_sensitivity :
    (∀ line : String,
      (reactLineFindings line).any (fun fd => fd.rule == "no-positive-tabindex") =
        reactTabFires line) ∧
    check_react "c6a.tsx" ["<div tabIndex=5>"] =
      [{ file := "c6a.tsx", line := 1, column := 0, severity := "warning",
         rule := "no-positive-tabindex", message := reactTabMsg,
         code_snippet := "<div tabIndex=5>" }] ∧
    check_react "c6b.tsx" ["<div tabindex=5>"] = [] ∧
    check_react "c6c.tsx" ["<div ONCLICK=\x7bf\x7d>x</div>"] =
      [{ file := "c6c.tsx", line := 1, column := 0, severity := "error",
         rule := "click-events-have-key-events", message := reactClickMsg,
         code_snippet := "<div ONCLICK=\x7bf\x7d>x</div>" }] := by
  refine ⟨?_, by decide, by decide, by decide⟩
  intro line
  simp only [reactLineFindings, List.any_append, reactImgPiece_eq, reactClickPiece_eq,
    reactRolePiece_eq, reactAriaPiece_eq, reactLabelPiece_eq, reactAutofocusPiece_eq,
    reactTabPiece_eq, any_ite_single]
  simp

/-! ## Claim theorems: stylesheet evaluator and the lightness crash -/

/-- C1: the color/background regexes capture 3 to 6 hex digits, but on a
4-digit capture `_similar_lightness` slices an empty third channel and
`int('', 16)` raises `ValueError` — a fatal error inside the scanning
logic, modelled by `none`. -/
theorem similar_lightness_four_digit_hex_fails :
    similar_lightness "abcd" "abcd" = none ∧
    check_css "bad.css" ["color: #aabb; background-color: #ccdd;"] = none ∧
    check_file (fun _ => FileState.readable "color: #aabb; background-color: #ccdd;")
      "bad.css" = none := by
  refine ⟨by decide, by decide, by decide⟩

/-- C4 counterexample: with `color: #fff;` and
`background: #eee; outline: none;` on separate lines after a `:focus`
line, the stylesheet evaluator produces NO issue at all: the one-line
lookback of the outline check sees only the `color:` line, and the
contrast check needs both declarations on a single line. -/
theorem check_css_two_line_colors_no_warnings :
    check_css "f.css" [":focus \x7b", "color: #fff;", "background: #eee; outline: none;"] =
      some [] := by decide

/-- C4 amended: merging the declarations onto the line immediately after
the `:focus` line produces both warnings, in evaluator order
(`focus-visible` then `color-contrast`), both on line 2. -/
theorem check_css_single_line_after_focus_two_warnings :
    check_css "f.css" [":focus \x7b", "color: #fff; background: #eee; outline: none;"] =
      some
        [{ file := "f.css", line := 2, column := 0, severity := "warning",
           rule := "focus-visible", message := focusMsg,
           code_snippet := "color: #fff; background: #eee; outline: none;" },
         { file := "f.css", line := 2, column := 0, severity := "warning",
           rule := "color-contrast", message := contrastMsg,
           code_snippet := "color: #fff; background: #eee; outline: none;" }] := by
  decide

/-! ## Claim theorems: orchestrator and CLI driver -/

/-- C2 counterexample: a path that exists but is not readable makes
`path.read_text()` raise, and `check_file` has no handler for it — the
exception escapes (modelled `none`) instead of an empty issue list being
returned. -/
theorem check_file_unreadable_aborts :
    check_file (fun _ => FileState.unreadable) "style.css" = none := rfl

/-- C2 amended: only a MISSING path is handled locally: `check_file`
reports it on stderr, returns zero issues, and the run proceeds with the
remaining files unchanged; an existing-but-unreadable path instead aborts
the run. -/
theorem check_file_missing_reports_and_continues (fs : FS) (p : String) (rest : List String)
    (h : fs p = FileState.missing) :
    check_file fs p = some (["Error: File not found: " ++ p], []) ∧
    runIssues fs (p :: rest) = runIssues fs rest := by
  constructor
  · simp [check_file, h]
  · simp only [runIssues, check_file, h]
    cases runIssues fs rest <;> simp

theorem check_file_missing_reports_and_continues_witness :
    ((fun _ => FileState.missing : FS) "nope.html" = FileState.missing) ∧
    (check_file (fun _ => FileState.missing) "nope.html" =
        some (["Error: File not found: " ++ "nope.html"], []) ∧
      runIssues (fun _ => FileState.missing) ("nope.html" :: ["a.css"]) =
        runIssues (fun _ => FileState.missing) ["a.css"]) :=
  ⟨rfl, check_file_missing_reports_and_continues (fun _ => FileState.missing) "nope.html"
    ["a.css"] rfl⟩

/-- C3 counterexample: an invocation consisting only of the `--json` flag
supplies zero file paths but exits 0, not 1: `len(sys.argv) < 2` is false,
the file list is empty, zero error issues are tallied. -/
theorem mainExit_flags_only_exits_zero :
    mainExit (fun _ => FileState.missing) ["--json"] = some 0 ∧
    mainExit (fun _ => FileState.missing) ["--json"] ≠ some 1 := by
  refine ⟨rfl, by decide⟩

/-- C3 amended: exit code 1 when the argument list is empty; otherwise,
when the scan completes, exit code 1 exactly when an error-severity issue
exists and 0 otherwise (warnings alone do not fail the run) — so an
invocation of flags only, with zero file paths, exits 0. -/
theorem mainExit_exit_code_policy (fs : FS) (args : List String) (iss : List Issue)
    (h : args ≠ [] → runIssues fs (args.filter (fun a => !pyStartsWith a "--")) = some iss) :
    mainExit fs args =
      if args.isEmpty then some 1 else some (if 0 < errCount iss then 1 else 0) := by
  cases args with
  | nil => simp [mainExit]
  | cons a t =>
    have h' := h (by simp)
    simp [mainExit, h']

theorem mainExit_exit_code_policy_witness :
    ((["a.txt"] : List String) ≠ [] →
      runIssues (fun _ => FileState.missing)
        ((["a.txt"] : List String).filter (fun a => !pyStartsWith a "--")) = some []) ∧
    mainExit (fun _ => FileState.missing) ["a.txt"] =
      if (["a.txt"] : List String).isEmpty then some 1
      else some (if 0 < errCount [] then 1 else 0) :=
  ⟨fun _ => rfl,
    mainExit_exit_code_policy (fun _ => FileState.missing) ["a.txt"] [] (fun _ => rfl)⟩

/-! ## Claim theorems: markup evaluator (line-scoped img-alt) -/

theorem mem_map_mkIssue_line {f : String} {i : Nat} {l : String} {fds : List Finding}
    {iss : Issue} (h : iss ∈ fds.map (mkIssue f i l)) : iss.line = i := by
  obtain ⟨fd, _, rfl⟩ := List.mem_map.mp h
  rfl

theorem mem_checkHtmlFrom_le {f : String} :
    ∀ (ls : List String) (i : Nat) (iss : Issue), iss ∈ checkHtmlFrom f i ls → i ≤ iss.line := by
  intro ls
  induction ls with
  | nil => intro i iss h; simp [checkHtmlFrom] at h
  | cons l t ih =>
    intro i iss h
    simp only [checkHtmlFrom] at h
    rcases List.mem_append.mp h with h1 | h2
    · exact (mem_map_mkIssue_line h1).ge
    · exact Nat.le_of_succ_le (ih (i + 1) iss h2)

theorem checkHtmlFrom_filter_line (f mid : String) :
    ∀ (pre : List String) (i : Nat) (post : List String),
      (checkHtmlFrom f i (pre ++ mid :: post)).filter (fun iss => iss.line == i + pre.length) =
        (htmlLineFindings (i + pre.length) mid).map (mkIssue f (i + pre.length) mid) := by
  intro pre
  induction pre with
  | nil =>
    intro i post
    simp only [List.nil_append, List.length_nil, Nat.add_zero, checkHtmlFrom,
      List.filter_append]
    have h1 : ((htmlLineFindings i mid).map (mkIssue f i mid)).filter
        (fun iss => iss.line == i) = (htmlLineFindings i mid).map (mkIssue f i mid) := by
      apply List.filter_eq_self.mpr
      intro a ha
      simp [mem_map_mkIssue_line ha]
    have h2 : (checkHtmlFrom f (i + 1) post).filter (fun iss => iss.line == i) = [] := by
      apply List.filter_eq_nil_iff.mpr
      intro a ha
      have hle := mem_checkHtmlFrom_le post (i + 1) a ha
      simp
      omega
    rw [h1, h2, List.append_nil]
  | cons a t ih =>
    intro i post
    simp only [List.cons_append, checkHtmlFrom, List.filter_append, List.length_cons]
    have h1 : ((htmlLineFindings i a).map (mkIssue f i a)).filter
        (fun iss => iss.line == i + (t.length + 1)) = [] := by
      apply List.filter_eq_nil_iff.mpr
      intro x hx
      have hx' := mem_map_mkIssue_line hx
      simp [hx']
    rw [h1, List.nil_append]
    rw [show i + (t.length + 1) = (i + 1) + t.length from by omega]
    exact ih (i + 1) post

theorem htmlLangPiece_img (k : Nat) : htmlLangPiece k "<img src=\"x.png\">" = [] := by
  have h : hasSub (lowerStr "<img src=\"x.png\">") "<html" = false := by decide
  simp [htmlLangPiece, h]

theorem htmlLineFindings_img (k : Nat) :
    htmlLineFindings k "<img src=\"x.png\">" = [⟨"error", "img-alt", imgAltMsg⟩] := by
  have h1 : htmlImgPiece "<img src=\"x.png\">" = [⟨"error", "img-alt", imgAltMsg⟩] := by decide
  have h2 : htmlButtonPiece "<img src=\"x.png\">" = [] := by decide
  have h3 : htmlClickPiece "<img src=\"x.png\">" = [] := by decide
  have h4 : htmlTabPiece "<img src=\"x.png\">" = [] := by decide
  simp [htmlLineFindings, h1, h2, h3, h4, htmlLangPiece_img k]

/-- C8: wherever the line `<img src=\"x.png\">` occurs in a markup file,
the scan yields exactly one issue for that line: rule `img-alt`, severity
`error`, carrying that line's 1-based number — independent of the
surrounding lines (the check is line-scoped). -/
theorem check_html_img_alt_line_scoped (f : String) (pre post : List String) :
    (check_html f (pre ++ "<img src=\"x.png\">" :: post)).filter
        (fun iss => iss.line == pre.length + 1) =
      [{ file := f, line := pre.length + 1, column := 0, severity := "error",
         rule := "img-alt", message := imgAltMsg, code_snippet := "<img src=\"x.png\">" }] := by
  rw [check_html]
  rw [show pre.length + 1 = 1 + pre.length from by omega]
  rw [checkHtmlFrom_filter_line f "<img src=\"x.png\">" pre 1 post, htmlLineFindings_img]
  simp [mkIssue, show stripStr "<img src=\"x.png\">" = "<img src=\"x.png\">" from by decide]

/-! ## Claim theorems: record output (every issue of a run has column 0) -/

theorem mem_map_mkIssue_col {f : String} {i : Nat} {l : String} {fds : List Finding}
    {iss : Issue} (h : iss ∈ fds.map (mkIssue f i l)) : iss.column = 0 := by
  obtain ⟨fd, _, rfl⟩ := List.mem_map.mp h
  rfl

theorem checkHtmlFrom_col {f : String} :
    ∀ (ls : List String) (i : Nat) (iss : Issue), iss ∈ checkHtmlFrom f i ls →
      iss.column = 0 := by
  intro ls
  induction ls with
  | nil => intro i iss h; simp [checkHtmlFrom] at h
  | cons l t ih =>
    intro i iss h
    simp only [checkHtmlFrom] at h
    rcases List.mem_append.mp h with h1 | h2
    · exact mem_map_mkIssue_col h1
    · exact ih (i + 1) iss h2

theorem checkReactFrom_col {f : String} :
    ∀ (ls : List String) (i : Nat) (iss : Issue), iss ∈ checkReactFrom f i ls →
      iss.column = 0 := by
  intro ls
  induction ls with
  | nil => intro i iss h; simp [checkReactFrom] at h
  | cons l t ih =>
    intro i iss h
    simp only [checkReactFrom] at h
    rcases List.mem_append.mp h with h1 | h2
    · exact mem_map_mkIssue_col h1
    · exact ih (i + 1) iss h2

theorem checkCssFrom_col {f : String} :
    ∀ (ls : List String) (i : Nat) (prev : Option String) (l : List Issue) (iss : Issue),
      checkCssFrom f i prev ls = some l → iss ∈ l → iss.column = 0 := by
  intro ls
  induction ls with
  | nil =>
    intro i prev l iss h hm
    simp [checkCssFrom] at h
    subst h
    simp at hm
  | cons a t ih =>
    intro i prev l iss h hm
    cases hc : cssLineFindings prev a with
    | none =>
      simp only [checkCssFrom, hc] at h
      exact Option.noConfusion h
    | some fds =>
      simp only [checkCssFrom, hc] at h
      obtain ⟨rest, hrest, hl⟩ := Option.map_eq_some'.mp h
      subst hl
      rcases List.mem_append.mp hm with h1 | h2
      · exact mem_map_mkIssue_col h1
      · exact ih (i + 1) (some a) rest iss hrest h2

theorem check_file_col {fs : FS} {p : String} {errs : List String} {iss : List Issue}
    (h : check_file fs p = some (errs, iss)) : ∀ x ∈ iss, x.column = 0 := by
  intro x hx
  cases hfs : fs p with
  | missing =>
    simp only [check_file, hfs] at h
    obtain ⟨-, h2⟩ := Prod.mk.injEq .. ▸ (Option.some.injEq .. ▸ h)
    subst h2
    simp at hx
  | unreadable =>
    simp only [check_file, hfs] at h
    exact Option.noConfusion h
  | readable content =>
    simp only [check_file, hfs] at h
    split_ifs at h with hh hr hc
    · obtain ⟨-, h2⟩ := Prod.mk.injEq .. ▸ (Option.some.injEq .. ▸ h)
      subst h2
      exact checkHtmlFrom_col (splitNlStr content) 1 x hx
    · obtain ⟨-, h2⟩ := Prod.mk.injEq .. ▸ (Option.some.injEq .. ▸ h)
      subst h2
      exact checkReactFrom_col (splitNlStr content) 1 x hx
    · obtain ⟨l, hl, hpair⟩ := Option.map_eq_some'.mp h
      obtain ⟨-, h2⟩ := Prod.mk.injEq .. ▸ hpair
      subst h2
      exact checkCssFrom_col (splitNlStr content) 1 none l x hl hx
    · obtain ⟨-, h2⟩ := Prod.mk.injEq .. ▸ (Option.some.injEq .. ▸ h)
      subst h2
      simp at hx

theorem runIssues_col {fs : FS} :
    ∀ (files : List String) (iss : List Issue), runIssues fs files = some iss →
      ∀ x ∈ iss, x.column = 0 := by
  intro files
  induction files with
  | nil =>
    intro iss h x hx
    simp [runIssues] at h
    subst h
    simp at hx
  | cons fpath t ih =>
    intro iss h x hx
    cases hcf : check_file fs fpath with
    | none =>
      simp only [runIssues, hcf] at h
      exact Option.noConfusion h
    | some pr =>
      obtain ⟨errs, is1⟩ := pr
      simp only [runIssues, hcf] at h
      obtain ⟨more, hmore, hl⟩ := Option.map_eq_some'.mp h
      subst hl
      rcases List.mem_append.mp hx with h1 | h2
      · exact check_file_col hcf x h1
      · exact ih more hmore x h2

/-- C5 counterexample: a run producing one issue renders an entry with
SEVEN populated fields, not six: `file`, `line`, `column`, `severity`,
`rule`, `message`, `code_snippet`. -/
theorem record_output_seven_fields_not_six :
    runIssues (fun p => if p = "a.html" then FileState.readable "<img src=\"x.png\">"
        else FileState.missing) ["a.html"] =
      some [{ file := "a.html", line := 1, column := 0, severity := "error", rule := "img-alt",
              message := imgAltMsg, code_snippet := "<img src=\"x.png\">" }] ∧
    ((asdict { file := "a.html", line := 1, column := 0, severity := "error", rule := "img-alt",
               message := imgAltMsg, code_snippet := "<img src=\"x.png\">" }).map
        Prod.fst).length = 7 ∧
    ¬ ((asdict { file := "a.html", line := 1, column := 0, severity := "error",
                 rule := "img-alt", message := imgAltMsg,
                 code_snippet := "<img src=\"x.png\">" }).map Prod.fst).length = 6 := by
  refine ⟨by decide, by decide, by decide⟩

/-- C5 amended: for every run, the record rendering is a list of exactly N
entries in original issue order with no grouping or omission, each entry
carrying all SEVEN Issue fields with names preserved verbatim and `column`
equal to 0. -/
theorem record_output_spec (fs : FS) (files : List String) (iss : List Issue)
    (h : runIssues fs files = some iss) :
    (format_output_json iss).length = iss.length ∧
    (∀ k : Nat, (format_output_json iss)[k]? = (iss[k]?).map asdict) ∧
    (∀ e ∈ format_output_json iss,
      e.map Prod.fst =
        ["file", "line", "column", "severity", "rule", "message", "code_snippet"]) ∧
    (∀ e ∈ format_output_json iss, e[2]? = some ("column", JVal.n 0)) := by
  refine ⟨by simp [format_output_json], ?_, ?_, ?_⟩
  · intro k
    simp [format_output_json, List.getElem?_map]
  · intro e he
    obtain ⟨x, -, rfl⟩ := List.mem_map.mp he
    rfl
  · intro e he
    obtain ⟨x, hx, rfl⟩ := List.mem_map.mp he
    have hc := runIssues_col files iss h x hx
    simp [asdict, hc]

theorem record_output_spec_witness :
    (runIssues fsW ["w.html"] = some [issueW]) ∧
    ((format_output_json [issueW]).length = [issueW].length ∧
    (∀ k : Nat, (format_output_json [issueW])[k]? = (([issueW])[k]?).map asdict) ∧
    (∀ e ∈ format_output_json [issueW],
      e.map Prod.fst =
        ["file", "line", "column", "severity", "rule", "message", "code_snippet"]) ∧
    (∀ e ∈ format_output_json [issueW], e[2]? = some ("column", JVal.n 0))) :=
  ⟨rfl, record_output_spec fsW ["w.html"] [issueW] rfl⟩

/-! ## Claim theorems: lightness heuristic on 3- and 6-digit hex colors -/

theorem hexDigitVal_le {c : Char} {v : Nat} (h : hexDigitVal c = some v) : v ≤ 15 := by
  simp only [hexDigitVal] at h
  split_ifs at h with h1 h2 h3 <;> simp at h <;> omega

theorem intHex2 {a b : Char} {va vb : Nat} (ha : hexDigitVal a = some va)
    (hb : hexDigitVal b = some vb) : intHex? [a, b] = some (16 * va + vb) := by
  simp [intHex?, intHexAux, ha, hb]

theorem list_len3 {α : Type} (l : List α) (h : l.length = 3) : ∃ a b c, l = [a, b, c] := by
  rcases l with _ | ⟨a, _ | ⟨b, _ | ⟨c, _ | ⟨d, t⟩⟩⟩⟩ <;> simp at h
  exact ⟨a, b, c, rfl⟩

theorem list_len6 {α : Type} (l : List α) (h : l.length = 6) :
    ∃ a b c d e f, l = [a, b, c, d, e, f] := by
  rcases l with _ | ⟨a, _ | ⟨b, _ | ⟨c, _ | ⟨d, _ | ⟨e, _ | ⟨f, _ | ⟨g, t⟩⟩⟩⟩⟩⟩⟩ <;> simp at h
  exact ⟨a, b, c, d, e, f, rfl⟩

theorem byteChannels_three {s : String} {a b c : Char} {va vb vc : Nat}
    (hs : s.toList = [a, b, c]) (ha : hexDigitVal a = some va)
    (hb : hexDigitVal b = some vb) (hc : hexDigitVal c = some vc) :
    byteChannels s = some (16 * va + va, 16 * vb + vb, 16 * vc + vc) := by
  have hs' : s.data = [a, b, c] := hs
  simp [byteChannels, expandHex, hs', doubleEach, intHex2 ha ha, intHex2 hb hb, intHex2 hc hc]

theorem byteChannels_six {s : String} {a b c d e f : Char} {va vb vc vd ve vf : Nat}
    (hs : s.toList = [a, b, c, d, e, f]) (ha : hexDigitVal a = some va)
    (hb : hexDigitVal b = some vb) (hc : hexDigitVal c = some vc)
    (hd : hexDigitVal d = some vd) (he : hexDigitVal e = some ve)
    (hf : hexDigitVal f = some vf) :
    byteChannels s = some (16 * va + vb, 16 * vc + vd, 16 * ve + vf) := by
  have hs' : s.data = [a, b, c, d, e, f] := hs
  simp [byteChannels, expandHex, hs', intHex2 ha hb, intHex2 hc hd, intHex2 he hf]

theorem hexColor_channels {s : String}
    (hlen : s.toList.length = 3 ∨ s.toList.length = 6)
    (hall : ∀ c ∈ s.toList, (hexDigitVal c).isSome) :
    ∃ r g b, byteChannels s = some (r, g, b) ∧ r ≤ 255 ∧ g ≤ 255 ∧ b ≤ 255 ∧
      hex_to_lightness s = some ((r + g + b) / 3) := by
  rcases hlen with h3 | h6
  · obtain ⟨a, b, c, hs⟩ := list_len3 _ h3
    have hs' : s.data = [a, b, c] := hs
    obtain ⟨va, hva⟩ := Option.isSome_iff_exists.mp (hall a (by simp [hs']))
    obtain ⟨vb, hvb⟩ := Option.isSome_iff_exists.mp (hall b (by simp [hs']))
    obtain ⟨vc, hvc⟩ := Option.isSome_iff_exists.mp (hall c (by simp [hs']))
    have hbc := byteChannels_three hs hva hvb hvc
    have b1 := hexDigitVal_le hva
    have b2 := hexDigitVal_le hvb
    have b3 := hexDigitVal_le hvc
    exact ⟨16 * va + va, 16 * vb + vb, 16 * vc + vc, hbc, by omega, by omega, by omega,
      by simp [hex_to_lightness, hbc]⟩
  · obtain ⟨a, b, c, d, e, f, hs⟩ := list_len6 _ h6
    have hs' : s.data = [a, b, c, d, e, f] := hs
    obtain ⟨va, hva⟩ := Option.isSome_iff_exists.mp (hall a (by simp [hs']))
    obtain ⟨vb, hvb⟩ := Option.isSome_iff_exists.mp (hall b (by simp [hs']))
    obtain ⟨vc, hvc⟩ := Option.isSome_iff_exists.mp (hall c (by simp [hs']))
    obtain ⟨vd, hvd⟩ := Option.isSome_iff_exists.mp (hall d (by simp [hs']))
    obtain ⟨ve, hve⟩ := Option.isSome_iff_exists.mp (hall e (by simp [hs']))
    obtain ⟨vf, hvf⟩ := Option.isSome_iff_exists.mp (hall f (by simp [hs']))
    have hbc := byteChannels_six hs hva hvb hvc hvd hve hvf
    have b1 := hexDigitVal_le hva
    have b2 := hexDigitVal_le hvb
    have b3 := hexDigitVal_le hvc
    have b4 := hexDigitVal_le hvd
    have b5 := hexDigitVal_le hve
    have b6 := hexDigitVal_le hvf
    exact ⟨16 * va + vb, 16 * vc + vd, 16 * ve + vf, hbc, by omega, by omega, by omega,
      by simp [hex_to_lightness, hbc]⟩

/-- C7: on every 3- or 6-digit hex color the lightness is the truncated
mean of the three byte channels (3-digit hex expanded by doubling each
digit, each channel at most 255), and two colors are classified similar
exactly when both lightnesses exceed 180 or both are below 75 — no other
combination is flagged. -/
theorem similar_lightness_spec (s1 s2 : String)
    (hl1 : s1.toList.length = 3 ∨ s1.toList.length = 6)
    (hd1 : ∀ c ∈ s1.toList, (hexDigitVal c).isSome)
    (hl2 : s2.toList.length = 3 ∨ s2.toList.length = 6)
    (hd2 : ∀ c ∈ s2.toList, (hexDigitVal c).isSome) :
    ∃ l1 l2 : Nat,
      hex_to_lightness s1 = some l1 ∧ hex_to_lightness s2 = some l2 ∧
      l1 ≤ 255 ∧ l2 ≤ 255 ∧
      (∃ r g b, byteChannels s1 = some (r, g, b) ∧ r ≤ 255 ∧ g ≤ 255 ∧ b ≤ 255 ∧
        l1 = (r + g + b) / 3) ∧
      (∃ r g b, byteChannels s2 = some (r, g, b) ∧ r ≤ 255 ∧ g ≤ 255 ∧ b ≤ 255 ∧
        l2 = (r + g + b) / 3) ∧
      similar_lightness s1 s2 =
        some (decide ((180 < l1 ∧ 180 < l2) ∨ (l1 < 75 ∧ l2 < 75))) := by
  obtain ⟨r1, g1, b1, hbc1, hr1, hg1, hb1, hL1⟩ := hexColor_channels hl1 hd1
  obtain ⟨r2, g2, b2, hbc2, hr2, hg2, hb2, hL2⟩ := hexColor_channels hl2 hd2
  refine ⟨(r1 + g1 + b1) / 3, (r2 + g2 + b2) / 3, hL1, hL2, by omega, by omega,
    ⟨r1, g1, b1, hbc1, hr1, hg1, hb1, rfl⟩, ⟨r2, g2, b2, hbc2, hr2, hg2, hb2, rfl⟩, ?_⟩
  have hfin : similar_lightness s1 s2 =
      some ((decide (180 < (r1 + g1 + b1) / 3) && decide (180 < (r2 + g2 + b2) / 3)) ||
        (decide ((r1 + g1 + b1) / 3 < 75) && decide ((r2 + g2 + b2) / 3 < 75))) := by
    simp [similar_lightness, hL1, hL2]
  rw [hfin]
  congr 1
  by_cases p1 : 180 < (r1 + g1 + b1) / 3 <;> by_cases p2 : 180 < (r2 + g2 + b2) / 3 <;>
    by_cases p3 : (r1 + g1 + b1) / 3 < 75 <;> by_cases p4 : (r2 + g2 + b2) / 3 < 75 <;>
    simp [p1, p2, p3, p4]

theorem similar_lightness_spec_witness :
    (((("fff" : String).toList.length = 3 ∨ ("fff" : String).toList.length = 6) ∧
      (∀ c ∈ ("fff" : String).toList, (hexDigitVal c).isSome) ∧
      (("112233" : String).toList.length = 3 ∨ ("112233" : String).toList.length = 6) ∧
      (∀ c ∈ ("112233" : String).toList, (hexDigitVal c).isSome))) ∧
    (∃ l1 l2 : Nat,
      hex_to_lightness "fff" = some l1 ∧ hex_to_lightness "112233" = some l2 ∧
      l1 ≤ 255 ∧ l2 ≤ 255 ∧
      (∃ r g b, byteChannels "fff" = some (r, g, b) ∧ r ≤ 255 ∧ g ≤ 255 ∧ b ≤ 255 ∧
        l1 = (r + g + b) / 3) ∧
      (∃ r g b, byteChannels "112233" = some (r, g, b) ∧ r ≤ 255 ∧ g ≤ 255 ∧ b ≤ 255 ∧
        l2 = (r + g + b) / 3) ∧
      similar_lightness "fff" "112233" =
        some (decide ((180 < l1 ∧ 180 < l2) ∨ (l1 < 75 ∧ l2 < 75)))) :=
  ⟨⟨by decide, by decide, by decide, by decide⟩,
    similar_lightness_spec "fff" "112233" (by decide) (by decide) (by decide) (by decide)⟩
